import Mathlib

/-
  Verification of the Multimodal-RAG-System document pipeline.

  Shallow embedding of:
    - utils/config.py     (RAGConfig constants)
    - utils/embeddings.py (TextEmbeddings.embed, TextEmbeddings._embed_batch,
                           TextEmbeddings.embed_documents)
    - utils/rag.py        (get_db, process_docs)
    - app/pages/chat.py   (RAGChatbot.retrieve_context, RAGChatbot.generate_response)

  External network calls, file-system writes and third-party library calls are
  modelled as oracles: functions supplied as parameters that return either a
  value or an error, standing for a normal return or a raised exception.
  Floating point numbers are modelled as rationals; none of the verified
  properties depend on rounding.
-/

/-- Exception values raised by external calls; only identity matters. -/
abbrev Err := String

/-- An embedding vector (list of floats, modelled as rationals). -/
abbrev Vec := List ℚ

/-- A document or chunk is identified by its text content. -/
abbrev Doc := String

instance instDecEqExcept (α β : Type) [DecidableEq α] [DecidableEq β] :
    DecidableEq (Except α β) := fun x y =>
  match x, y with
  | .ok a, .ok b =>
    if h : a = b then .isTrue (by simp [h]) else .isFalse (by simp [h])
  | .ok _, .error _ => .isFalse (by simp)
  | .error _, .ok _ => .isFalse (by simp)
  | .error a, .error b =>
    if h : a = b then .isTrue (by simp [h]) else .isFalse (by simp [h])

/-- True exactly when an Except value models a raised exception. -/
def isErr {α : Type} : Except Err α → Bool
  | .error _ => true
  | .ok _ => false

-- Constants from utils/config.py, class RAGConfig.
namespace RAGConfig

/-- MAX_RETRIES = 3 in utils/config.py. -/
def MAX_RETRIES : Nat := 3

/-- EMBEDDING_BATCH_SIZE = 20 in utils/config.py. -/
def EMBEDDING_BATCH_SIZE : Nat := 20

/-- CHUNK_SIZE = 300 in utils/config.py. -/
def CHUNK_SIZE : Nat := 300

/-- CHUNK_OVERLAP = 100 in utils/config.py. -/
def CHUNK_OVERLAP : Nat := 100

end RAGConfig

/-
  ===================  utils/embeddings.py : TextEmbeddings.embed  =============

  Python source:

    def embed(self, string):
        for attempt in range(RAGConfig.MAX_RETRIES):
            try:
                response = session.post(...)
                response.raise_for_status()
                return response.json()["embeddings"][0]
            except Exception as e:
                if attempt == RAGConfig.MAX_RETRIES - 1:
                    raise e
                time.sleep(0.5 * (attempt + 1))

  The network round trip of attempt number a (0-based) is the oracle value
  (oracle a): ok v models a successful call yielding vector v, error e models
  any raised exception.  The run records the result (error for a propagated
  exception; ok none for the fall-through when MAX_RETRIES = 0, where Python
  returns None), the sleep durations in seconds, and the number of attempts
  made.  The loop is written structurally on the count of remaining
  iterations; with maxRetries = m and remaining = r the iteration underway
  handles attempt index m - r.
-/

/-- Outcome of one run of TextEmbeddings.embed. -/
structure EmbedRun where
  result : Except Err (Option Vec)
  sleeps : List ℚ
  attempts : Nat
deriving DecidableEq, Repr

/-- Sleep duration in seconds recorded after failed 0-based attempt a:
time.sleep(0.5 * (attempt + 1)). -/
def sleepAfter (a : Nat) : ℚ := ((a : ℚ) + 1) / 2

/-- The retry loop of TextEmbeddings.embed, with r iterations left to run. -/
def embedLoop (oracle : Nat → Except Err Vec) (maxRetries : Nat) : Nat → EmbedRun
  | 0 => { result := .ok none, sleeps := [], attempts := 0 }
  | r + 1 =>
    let a := maxRetries - r - 1
    match oracle a with
    | .ok v => { result := .ok (some v), sleeps := [], attempts := 1 }
    | .error e =>
      if r = 0 then
        { result := .error e, sleeps := [], attempts := 1 }
      else
        let rest := embedLoop oracle maxRetries r
        { result := rest.result
          sleeps := sleepAfter a :: rest.sleeps
          attempts := rest.attempts + 1 }

/-- TextEmbeddings.embed: the retry loop started at attempt 0. -/
def embed (oracle : Nat → Except Err Vec) (maxRetries : Nat) : EmbedRun :=
  embedLoop oracle maxRetries maxRetries

/-
  ============  utils/embeddings.py : _embed_batch / embed_documents  ==========

  Python source of _embed_batch:

    embeddings = [None] * len(texts)
    with ThreadPoolExecutor(max_workers=self.max_workers) as executor:
        future_to_index = {executor.submit(self.embed, text): i
                           for i, text in enumerate(texts)}
        for future in as_completed(future_to_index):
            index = future_to_index[future]
            try:
                embeddings[index] = future.result()
            except Exception as exc:
                embeddings[index] = [0.0] * 1024
    return embeddings

  The oracle g gives, for the item submitted at global position i with text t,
  the final outcome of its embed call (after the internal retries of embed):
  ok v for a returned vector, error e for the exception raised by the final
  attempt.  as_completed yields the futures in an arbitrary order; the order
  is an explicit parameter of the non-deterministic model embedBatchOrd, and
  embedBatch is the deterministic positional result, proved equal to
  embedBatchOrd for every completion order that is a permutation of the
  indices.
-/

/-- The hard-coded fallback written when one embedding fails: [0.0] * 1024. -/
def fallbackVector : Vec := List.replicate 1024 0

/-- Value stored at slot i of the embeddings array: the vector returned by
embed, or the zero-vector fallback when embed raised. -/
def itemResult (g : Nat → String → Except Err Vec) (i : Nat) (t : String) : Vec :=
  match g i t with
  | .ok v => v
  | .error _ => fallbackVector

/-- Map with an explicit starting index. -/
def mapWithIndex {α β : Type} (f : Nat → α → β) : Nat → List α → List β
  | _, [] => []
  | off, x :: xs => f off x :: mapWithIndex f (off + 1) xs

/-- Deterministic result of _embed_batch for the slice of texts whose global
positions start at off. -/
def embedBatch (g : Nat → String → Except Err Vec) (off : Nat) (texts : List String) : List Vec :=
  mapWithIndex (fun i t => itemResult g i t) off texts

/-- The embeddings array modelled as a map from slot index to contents. -/
def updSlot (f : Nat → Option Vec) (i : Nat) (v : Vec) : Nat → Option Vec :=
  fun j => if j = i then some v else f j

/-- The as_completed loop: completions arrive in the given order; each writes
its own slot of the embeddings array. -/
def runCompletions (g : Nat → String → Except Err Vec) (off : Nat) (texts : List String) :
    List Nat → (Nat → Option Vec) → Nat → Option Vec
  | [], f => f
  | i :: rest, f =>
      runCompletions g off texts rest (updSlot f i (itemResult g (off + i) (texts.getD i "")))

/-- The embeddings array read back as a list, after all completions in the
given order have been processed, starting from the all-None array. -/
def embedBatchOrd (g : Nat → String → Except Err Vec) (off : Nat) (texts : List String)
    (order : List Nat) : List (Option Vec) :=
  (List.range texts.length).map (runCompletions g off texts order (fun _ => none))

/-- Python source of embed_documents:

    if not texts: return []
    all_embeddings = []
    for i in range(0, len(texts), self.batch_size):
        batch = texts[i:i + self.batch_size]
        all_embeddings.extend(self._embed_batch(batch))
    return all_embeddings

  bs is self.batch_size; Python raises ValueError for bs = 0, so the model is
  stated for bs at least 1 (max bs 1 keeps the definition total). -/
def embedDocsAux (g : Nat → String → Except Err Vec) (bs : Nat) : Nat → List String → List Vec
  | _, [] => []
  | off, t :: rest =>
    let batch := (t :: rest).take (max bs 1)
    embedBatch g off batch ++ embedDocsAux g bs (off + batch.length) ((t :: rest).drop (max bs 1))
termination_by _ l => l.length
decreasing_by
  simp only [List.length_drop, List.length_cons]
  omega

/-- TextEmbeddings.embed_documents. -/
def embed_documents (g : Nat → String → Except Err Vec) (bs : Nat) (texts : List String) : List Vec :=
  if texts.isEmpty then [] else embedDocsAux g bs 0 texts

/-
  =====================  utils/rag.py : get_db / process_docs  =================

  Python source of process_docs (abridged to its control flow):

    os.makedirs("data", exist_ok=True)
    os.makedirs(f"data/{session_id}", exist_ok=True)
    try:
        for uploaded_file in uploaded_files:
            if uploaded_file.name not in processed_files:
                temp_path = f"data/{session_id}/{uploaded_file.name}"
                with open(temp_path, "wb") as f:
                    f.write(uploaded_file.getvalue())
                temp_files.append(temp_path)
                new_processed.append(uploaded_file.name)
        if not temp_files:
            return existing_db, processed_files
        all_docs = process_input_files_batch(temp_files, ...)
        if not all_docs:
            return existing_db, processed_files
        splits = get_splits(all_docs, ...)
        if not splits:
            return existing_db, processed_files
        if existing_db is None:
            db = get_db(splits, ...)
        else:
            try:
                existing_db.add_documents(documents=splits, ...)
                db = existing_db
            except Exception as e:
                db = get_db(splits, ...)
        processed_files.extend(new_processed)
        return db, processed_files
    except Exception as e:
        return existing_db, processed_files
    finally:
        try:
            if os.path.exists(f"data/{session_id}"):
                shutil.rmtree(f"data/{session_id}")
        except Exception as e:
            print("Warning: Could not clean up temporary files:", e)

  The oracle bundles every effectful call: per-file staging writes, the
  loading stage, the splitting stage, Chroma.from_documents (index creation)
  and add_documents (index upsert), and whether shutil.rmtree succeeds.  A
  vector index is abstracted by the list of chunks embedded into it.  The
  model returns the value of the call plus the post-call state the claims
  talk about: whether data/{session_id} still exists, the trace of stage
  work performed, and which exit path was taken.
-/

/-- A vector index (Chroma collection), abstracted by its stored chunks. -/
structure DB where
  entries : List Doc
deriving DecidableEq, Repr

/-- One uploaded file handle: a name and the bytes of getvalue(). -/
structure UploadedFile where
  name : String
  content : String
deriving DecidableEq, Repr

/-- Outcomes of the effectful calls made by one run of process_docs. -/
structure PipelineOracle where
  writeErr : String → Option Err
  loadDocs : List String → Except Err (List Doc)
  splitDocs : List Doc → Except Err (List Doc)
  createErr : List Doc → Option Err
  addErr : List Doc → List Doc → Option Err
  rmtreeOk : Bool

/-- Work stages actually performed during a run (each entry is one call into
the loading, splitting or index layer; the index calls are the ones that
embed, i.e. make embedding network calls). -/
inductive StageWork
  | load
  | split
  | indexCreate
  | indexAdd
deriving DecidableEq, Repr

/-- Which exit path a run of process_docs took. -/
inductive ExitKind
  | noNewFiles
  | noDocs
  | noSplits
  | committed
  | exceptionCaught
deriving DecidableEq, Repr

/-- Full observable outcome of one process_docs call. -/
structure PipelineResult where
  db : Option DB
  processed : List String
  dirExists : Bool
  trace : List StageWork
  exit : ExitKind
deriving DecidableEq, Repr

/-- utils/rag.py get_db: returns None for empty splits, and None again when
Chroma.from_documents raises (the exception is caught and logged). -/
def get_db (o : PipelineOracle) (splits : List Doc) : Option DB :=
  if splits.isEmpty then none
  else
    match o.createErr splits with
    | some _ => none
    | none => some { entries := splits }

/-- Path of the per-session staging copy of one uploaded file. -/
def tempPath (sessionId name : String) : String :=
  "data/" ++ sessionId ++ "/" ++ name

/-- The staging loop: copies each uploaded file whose name is not yet in
processed_files into the session directory, accumulating (temp_files,
new_processed) in order; a failed write raises out of the loop. -/
def stageLoop (o : PipelineOracle) (sessionId : String) (processed : List String) :
    List UploadedFile → Except Err (List String × List String)
  | [] => .ok ([], [])
  | f :: rest =>
    if f.name ∈ processed then
      stageLoop o sessionId processed rest
    else
      match o.writeErr (tempPath sessionId f.name) with
      | some e => .error e
      | none =>
        match stageLoop o sessionId processed rest with
        | .error e => .error e
        | .ok (ts, ns) => .ok (tempPath sessionId f.name :: ts, f.name :: ns)

/-- The finally block: data/{session_id} exists at that point on every path,
rmtree is attempted, and a cleanup failure is caught and logged, leaving the
directory behind. -/
def finishRun (o : PipelineOracle) (db : Option DB) (pf : List String)
    (tr : List StageWork) (ex : ExitKind) : PipelineResult :=
  { db := db, processed := pf, dirExists := !o.rmtreeOk, trace := tr, exit := ex }

/-- The create-or-update step of process_docs, reached with non-empty splits:
with no existing index, get_db builds a new one; with an existing index,
add_documents is attempted and on failure (caught and logged) get_db builds a
new index from the new splits alone; either way the new filenames are then
committed by processed_files.extend(new_processed). -/
def commitStage (o : PipelineOracle) (pf np : List String) (existing_db : Option DB)
    (splits : List Doc) : PipelineResult :=
  match existing_db with
  | none =>
    finishRun o (get_db o splits) (pf ++ np) [.load, .split, .indexCreate] .committed
  | some db0 =>
    match o.addErr db0.entries splits with
    | none =>
      finishRun o (some { entries := db0.entries ++ splits }) (pf ++ np)
        [.load, .split, .indexAdd] .committed
    | some _ =>
      finishRun o (get_db o splits) (pf ++ np)
        [.load, .split, .indexAdd, .indexCreate] .committed

/-- Continuation of process_docs after get_splits returns (or raises). -/
def splitStage (o : PipelineOracle) (pf np : List String) (existing_db : Option DB) :
    Except Err (List Doc) → PipelineResult
  | .error _ => finishRun o existing_db pf [.load, .split] .exceptionCaught
  | .ok splits =>
    if splits.isEmpty then finishRun o existing_db pf [.load, .split] .noSplits
    else commitStage o pf np existing_db splits

/-- Continuation of process_docs after process_input_files_batch returns (or
raises). -/
def loadStage (o : PipelineOracle) (pf np : List String) (existing_db : Option DB) :
    Except Err (List Doc) → PipelineResult
  | .error _ => finishRun o existing_db pf [.load] .exceptionCaught
  | .ok all_docs =>
    if all_docs.isEmpty then finishRun o existing_db pf [.load] .noDocs
    else splitStage o pf np existing_db (o.splitDocs all_docs)

/-- Continuation of process_docs after the staging loop returns (or raises). -/
def stageOutcome (o : PipelineOracle) (pf : List String) (existing_db : Option DB) :
    Except Err (List String × List String) → PipelineResult
  | .error _ => finishRun o existing_db pf [] .exceptionCaught
  | .ok (temp_files, new_processed) =>
    if temp_files.isEmpty then finishRun o existing_db pf [] .noNewFiles
    else loadStage o pf new_processed existing_db (o.loadDocs temp_files)

/-- utils/rag.py process_docs.  processed_files is the caller's list; the
result's processed field is that list as the caller sees it after the call
(Python mutates it in place only via the single extend in the commit step). -/
def process_docs (o : PipelineOracle) (sessionId : String) (uploaded : List UploadedFile)
    (processed_files : List String) (existing_db : Option DB) : PipelineResult :=
  stageOutcome o processed_files existing_db (stageLoop o sessionId processed_files uploaded)

/-
  ==========  app/pages/chat.py : RAGChatbot.retrieve_context  ================

  Python source:

    if not self.database:
        return []
    try:
        results = self.database.similarity_search_with_score(query, k=k)
        context_chunks = []
        for doc, score in results:
            if score < 1.5:
                context_chunks.append(doc.page_content)
        if not context_chunks:
            fallback_results = self.database.similarity_search(query, k=min(k, 3))
            context_chunks = [doc.page_content for doc in fallback_results]
        return context_chunks
    except Exception as e:
        return []

  The Chroma store is an oracle: searchWS is similarity_search_with_score
  (pairs of chunk text and distance score), search is similarity_search;
  either may raise.  hasEntries records whether the index holds any entries;
  the contract of the store (top-k search on a non-empty index returns at
  least one hit) enters the theorems as a hypothesis.
-/

/-- The vector store as seen by RAGChatbot. -/
structure ChatDB where
  hasEntries : Bool
  searchWS : String → Nat → Except Err (List (String × ℚ))
  search : String → Nat → Except Err (List String)

/-- The fixed relevance threshold 1.5 of retrieve_context. -/
def relevanceThreshold : ℚ := 3 / 2

/-- RAGChatbot.retrieve_context. -/
def retrieve_context (db : Option ChatDB) (query : String) (k : Nat) : List String :=
  match db with
  | none => []
  | some d =>
    match d.searchWS query k with
    | .error _ => []
    | .ok results =>
      let context_chunks := (results.filter (fun p => p.2 < relevanceThreshold)).map (fun p => p.1)
      if context_chunks.isEmpty then
        match d.search query (min k 3) with
        | .error _ => []
        | .ok fallback_results => fallback_results
      else context_chunks

/-
  ==========  app/pages/chat.py : RAGChatbot.generate_response  ===============

  The prompt is assembled from the query, the retrieved context and the last
  three conversation exchanges, then one HTTP POST is made with timeout=30.
  The outcome of that call is the oracle value (net prompt):

    timeout           requests.exceptions.Timeout raised
    httpResp s parse  a response with status code s; parse is the attempt to
                      evaluate response.json()["response"] (only made when
                      s = 200; error models a raised parse/KeyError)
    otherExc m        any other exception raised inside the try block

  Matching the Python handlers: status 200 with a good body returns the body;
  status 200 with a failing parse falls to the generic handler; non-200
  returns the status-coded literal; Timeout returns the timeout literal; any
  other exception returns the literal embedding the exception text.
-/

/-- True when t occurs as a substring of s (Python in-operator on str). -/
def strContains (s t : String) : Bool := (s.splitOn t).length > 1

/-- One entry of RAGChatbot.conversation_history. -/
structure Exchange where
  user : String
  bot : String

/-- The previous-conversation block: last 3 exchanges, formatted. -/
def conversationContext (history : List Exchange) : String :=
  ((history.drop (history.length - 3)).map
    (fun ex => "Human: " ++ ex.user ++ "\nAssistant: " ++ ex.bot ++ "\n\n")).foldl
    (fun acc s => acc ++ s) ""

/-- Task instruction chosen by keyword heuristics on the lowered query. -/
def taskInstruction (query : String) : String :=
  let q := query.toLower
  let is_summary := strContains q "summarize" || strContains q "summary" ||
    strContains q "overview" || strContains q "main points"
  let is_comparison := strContains q "compare" || strContains q "difference" ||
    strContains q "versus" || strContains q "vs"
  let is_explanation := strContains q "how" || strContains q "why" || strContains q "explain"
  if is_summary then
    "Provide a comprehensive summary of the key points from the context."
  else if is_comparison then
    "Compare the different aspects mentioned in the context, highlighting similarities and differences."
  else if is_explanation then
    "Provide a detailed explanation based on the context, breaking down complex concepts if needed."
  else
    "Answer the question directly using information from the context."

/-- The full prompt string sent to the generation endpoint. -/
def buildPrompt (query : String) (context : List String) (history : List Exchange) : String :=
  let context_text :=
    if context.isEmpty then "No relevant context found."
    else String.intercalate "\n\n" context
  "You are a helpful AI assistant that answers questions based on provided document context.\n\nPrevious conversation:\n"
    ++ conversationContext history
    ++ "\n\nContext from documents:\n" ++ context_text
    ++ "\n\nCurrent question: " ++ query
    ++ "\n\nTask: " ++ taskInstruction query
    ++ "\n\nInstructions:\n1. Base your answer primarily on the provided context\n2. If the context is insufficient, clearly state what information is missing\n3. Be accurate and cite specific details from the context when relevant\n4. Structure your response clearly with bullet points or numbered lists when appropriate\n5. If this relates to previous conversation, acknowledge the connection\n6. Keep responses focused and informative\n\nAnswer:"

/-- Outcome of the single generation HTTP call. -/
inductive GenOutcome
  | timeout
  | httpResp (status : Nat) (parse : Except Err String)
  | otherExc (msg : String)

/-- RAGChatbot.generate_response: always returns a string, never raises. -/
def generate_response (net : String → GenOutcome) (query : String) (context : List String)
    (history : List Exchange) : String :=
  let prompt := buildPrompt query context history
  match net prompt with
  | .timeout => "Error: Request timed out. Please try again."
  | .httpResp status parse =>
    if status = 200 then
      match parse with
      | .ok resp => resp
      | .error e => "Error generating response: " ++ e
    else
      "Error: Failed to get response from AI model (Status: " ++ toString status ++ ")"
  | .otherExc e => "Error generating response: " ++ e

/-- Oracle for the C5 witness: attempt 0 fails, attempt 1 succeeds. -/
def oracleC5 : Nat → Except Err Vec :=
  fun a => if a = 0 then .error "connection reset" else .ok [1]

/-- Oracle for the C2 witness: every embed call succeeds with a
position-dependent vector. -/
def oracleC2 : Nat → String → Except Err Vec := fun i _ => .ok [(i : ℚ)]

/-- Oracle for the C4 counterexample: item 0 embeds successfully with a
2-dimensional vector, item 1 fails all retries. -/
def oracleC4 : Nat → String → Except Err Vec :=
  fun i _ => if i = 0 then .ok [1, 2] else .error "embed failed"

/-- Oracle for the C4 witness: item 0 fails all retries, item 1 succeeds. -/
def oracleC4W : Nat → String → Except Err Vec :=
  fun i _ => if i = 0 then .error "boom" else .ok [5]

/-- Oracle for the C1 witness: staging and loading succeed, the splitting
stage raises. -/
def oracleC1 : PipelineOracle :=
  { writeErr := fun _ => none
    loadDocs := fun files => .ok (files.map (fun f => "content of " ++ f))
    splitDocs := fun _ => .error "splitter raised"
    createErr := fun _ => none
    addErr := fun _ _ => none
    rmtreeOk := true }

/-- Oracle for the C3 witness: every stage would succeed if it ran. -/
def oracleC3 : PipelineOracle :=
  { writeErr := fun _ => none
    loadDocs := fun files => .ok (files.map (fun f => "content of " ++ f))
    splitDocs := fun docs => .ok docs
    createErr := fun _ => none
    addErr := fun _ _ => none
    rmtreeOk := true }

/-- Oracle for the C8 counterexample: a benign run in which shutil.rmtree
itself raises (e.g. a permission error); the cleanup handler catches the
exception, logs a warning, and the staging directory survives. -/
def oracleC8 : PipelineOracle :=
  { writeErr := fun _ => none
    loadDocs := fun files => .ok (files.map (fun f => "content of " ++ f))
    splitDocs := fun docs => .ok docs
    createErr := fun _ => none
    addErr := fun _ _ => none
    rmtreeOk := false }

/-- Oracle for the C8 witness: same benign run with a succeeding rmtree. -/
def oracleC8W : PipelineOracle :=
  { writeErr := fun _ => none
    loadDocs := fun files => .ok (files.map (fun f => "content of " ++ f))
    splitDocs := fun docs => .ok docs
    createErr := fun _ => none
    addErr := fun _ _ => none
    rmtreeOk := true }

/-- Oracle for the C9 witness: loading and splitting succeed, the in-place
upsert raises, the fallback index creation succeeds. -/
def oracleC9 : PipelineOracle :=
  { writeErr := fun _ => none
    loadDocs := fun _ => .ok ["new doc"]
    splitDocs := fun docs => .ok docs
    createErr := fun _ => none
    addErr := fun _ _ => some "add_documents raised"
    rmtreeOk := true }

/-- Oracle for the C10 witness: the new file stages fine but loading extracts
zero documents. -/
def oracleC10 : PipelineOracle :=
  { writeErr := fun _ => none
    loadDocs := fun _ => .ok []
    splitDocs := fun docs => .ok docs
    createErr := fun _ => none
    addErr := fun _ _ => none
    rmtreeOk := true }

/-- Store for the C7 witness: one hit at distance 2 (above threshold), a
non-empty unthresholded fallback. -/
def chatDbC7 : ChatDB :=
  { hasEntries := true
    searchWS := fun _ _ => .ok [("far away chunk", 2)]
    search := fun _ _ => .ok ["fallback chunk"] }

/-
  ===========================  Lemmas and claim theorems  =====================
-/

/-- Splitting off the first of a run of consecutive sleeps. -/
lemma sleepShift (a n : Nat) :
    (List.range (n + 1)).map (fun j => sleepAfter (a + j)) =
      sleepAfter a :: (List.range n).map (fun j => sleepAfter (a + 1 + j)) := by
  rw [List.range_succ_eq_map, List.map_cons, List.map_map]
  refine List.cons_eq_cons.mpr ⟨by simp, ?_⟩
  apply List.map_congr_left
  intro j hj
  simp only [Function.comp_apply]
  congr 1
  omega

lemma embedLoop_attempts_le (oracle : Nat → Except Err Vec) (maxRetries : Nat) :
    ∀ r, (embedLoop oracle maxRetries r).attempts ≤ r := by
  intro r
  induction r with
  | zero => simp [embedLoop]
  | succ n ih =>
    rw [embedLoop]
    cases oracle (maxRetries - n - 1) with
    | ok v => simp
    | error e =>
      by_cases hn : n = 0
      · simp [hn]
      · simp only [hn, if_false]
        simpa using Nat.add_le_add_right ih 1

/-- Success case of the retry loop: attempts a .. k-1 fail, attempt k
succeeds.  Characterizes the run from any suffix of the loop. -/
lemma embedLoop_ok_from (oracle : Nat → Except Err Vec) (m k : Nat) (v : Vec)
    (hk : k < m) (hok : oracle k = .ok v)
    (hfail : ∀ j, j < k → isErr (oracle j) = true) :
    ∀ r a, r + a = m → a ≤ k →
      embedLoop oracle m r =
        { result := .ok (some v)
          sleeps := (List.range (k - a)).map (fun j => sleepAfter (a + j))
          attempts := k - a + 1 } := by
  intro r
  induction r with
  | zero =>
    intro a hra hak
    omega
  | succ n ih =>
    intro a hra hak
    have hattempt : m - n - 1 = a := by omega
    rw [embedLoop]
    simp only [hattempt]
    by_cases hcase : a = k
    · subst hcase
      rw [hok]
      simp
    · have hlt : a < k := by omega
      have hfa := hfail a hlt
      cases hoa : oracle a with
      | ok w => rw [hoa] at hfa; simp [isErr] at hfa
      | error e =>
        have hn : n ≠ 0 := by omega
        simp only [hn, if_false]
        rw [ih (a + 1) (by omega) (by omega)]
        have hrange : k - a = (k - (a + 1)) + 1 := by omega
        rw [hrange, sleepShift]

/-- Failure case of the retry loop: every attempt in range fails; the final
attempt raises its own exception. -/
lemma embedLoop_err_from (oracle : Nat → Except Err Vec) (m : Nat) (e : Err)
    (hm : 1 ≤ m) (hlast : oracle (m - 1) = .error e)
    (hfail : ∀ j, j < m → isErr (oracle j) = true) :
    ∀ r a, r + a = m → r ≥ 1 →
      embedLoop oracle m r =
        { result := .error e
          sleeps := (List.range (m - 1 - a)).map (fun j => sleepAfter (a + j))
          attempts := m - a } := by
  intro r
  induction r with
  | zero =>
    intro a hra hr
    omega
  | succ n ih =>
    intro a hra _
    have hattempt : m - n - 1 = a := by omega
    rw [embedLoop]
    simp only [hattempt]
    by_cases hcase : n = 0
    · have ha : a = m - 1 := by omega
      cases hoa : oracle a with
      | ok w =>
        have hfa := hfail a (by omega)
        rw [hoa] at hfa
        simp [isErr] at hfa
      | error e2 =>
        have he : e = e2 := by
          rw [ha, hlast] at hoa
          simpa using hoa
        have h0 : m - 1 - a = 0 := by omega
        have h1 : m - a = 1 := by omega
        rw [he, h0, h1]
        simp [hcase]
    · have hlt : a < m - 1 := by omega
      have hfa := hfail a (by omega)
      cases hoa : oracle a with
      | ok w => rw [hoa] at hfa; simp [isErr] at hfa
      | error e2 =>
        simp only [hcase, if_false]
        rw [ih (a + 1) (by omega) (by omega)]
        have hrange : m - 1 - a = (m - 1 - (a + 1)) + 1 := by omega
        have hatt : m - a = (m - (a + 1)) + 1 := by omega
        rw [hrange, hatt, sleepShift]

lemma mapWithIndex_append {α β : Type} (f : Nat → α → β) :
    ∀ (l1 l2 : List α) (off : Nat),
      mapWithIndex f off (l1 ++ l2) = mapWithIndex f off l1 ++ mapWithIndex f (off + l1.length) l2 := by
  intro l1
  induction l1 with
  | nil => intro l2 off; simp [mapWithIndex]
  | cons x xs ih =>
    intro l2 off
    simp only [List.cons_append, mapWithIndex, List.length_cons, List.append_eq]
    rw [ih]
    have h : off + 1 + xs.length = off + (xs.length + 1) := by omega
    rw [h]

lemma mapWithIndex_length {α β : Type} (f : Nat → α → β) :
    ∀ (l : List α) (off : Nat), (mapWithIndex f off l).length = l.length := by
  intro l
  induction l with
  | nil => intro off; rfl
  | cons x xs ih => intro off; simp [mapWithIndex, ih]

lemma mapWithIndex_getElem? {α β : Type} (f : Nat → α → β) (d : α) :
    ∀ (l : List α) (off i : Nat), i < l.length →
      (mapWithIndex f off l)[i]? = some (f (off + i) (l.getD i d)) := by
  intro l
  induction l with
  | nil => intro off i hi; simp at hi
  | cons x xs ih =>
    intro off i hi
    cases i with
    | zero => simp [mapWithIndex]
    | succ j =>
      have hj : j < xs.length := by simpa using hi
      have := ih (off + 1) j hj
      simp only [mapWithIndex, List.getElem?_cons_succ, List.getD_cons_succ, this]
      congr 2
      omega

lemma runCompletions_not_mem (g : Nat → String → Except Err Vec) (off : Nat) (texts : List String) :
    ∀ (order : List Nat) (f : Nat → Option Vec) (i : Nat), i ∉ order →
      runCompletions g off texts order f i = f i := by
  intro order
  induction order with
  | nil => intro f i hi; rfl
  | cons j rest ih =>
    intro f i hi
    have hne : i ≠ j := fun h => hi (h ▸ List.mem_cons_self j rest)
    have hrest : i ∉ rest := fun h => hi (List.mem_cons_of_mem j h)
    rw [runCompletions, ih _ i hrest, updSlot]
    simp [hne]

lemma runCompletions_mem (g : Nat → String → Except Err Vec) (off : Nat) (texts : List String) :
    ∀ (order : List Nat) (f : Nat → Option Vec) (i : Nat), i ∈ order →
      runCompletions g off texts order f i = some (itemResult g (off + i) (texts.getD i "")) := by
  intro order
  induction order with
  | nil => intro f i hi; simp at hi
  | cons j rest ih =>
    intro f i hi
    by_cases hrest : i ∈ rest
    · rw [runCompletions, ih _ i hrest]
    · have hij : i = j := by
        rcases List.mem_cons.mp hi with h | h
        · exact h
        · exact absurd h hrest
      subst hij
      rw [runCompletions, runCompletions_not_mem g off texts rest _ i hrest, updSlot]
      simp

lemma mapWithIndex_eq_range_map {α β : Type} (f : Nat → α → β) (d : α) (l : List α) (off : Nat) :
    mapWithIndex f off l = (List.range l.length).map (fun i => f (off + i) (l.getD i d)) := by
  apply List.ext_getElem?
  intro i
  by_cases hi : i < l.length
  · rw [mapWithIndex_getElem? f d l off i hi, List.getElem?_map, List.getElem?_range hi]
    rfl
  · have h1 : (mapWithIndex f off l).length ≤ i := by
      rw [mapWithIndex_length]
      omega
    have h2 : ((List.range l.length).map (fun i => f (off + i) (l.getD i d))).length ≤ i := by
      simp only [List.length_map, List.length_range]
      omega
    rw [List.getElem?_eq_none h1, List.getElem?_eq_none h2]

/-- One batch of _embed_batch: for every completion order that is a
permutation of the slot indices, the final embeddings array is the positional
one — every slot filled with the result for its own text. -/
lemma embedBatchOrd_perm (g : Nat → String → Except Err Vec) (off : Nat)
    (texts : List String) (order : List Nat)
    (hperm : order.Perm (List.range texts.length)) :
    embedBatchOrd g off texts order = (embedBatch g off texts).map some := by
  rw [embedBatchOrd, embedBatch,
    mapWithIndex_eq_range_map (fun i t => itemResult g i t) "" texts off, List.map_map]
  apply List.map_congr_left
  intro i hi
  have hmem : i ∈ order := hperm.mem_iff.mpr hi
  rw [runCompletions_mem g off texts order _ i hmem]
  rfl

lemma embedDocsAux_eq (g : Nat → String → Except Err Vec) (bs : Nat) :
    ∀ (n : Nat) (texts : List String), texts.length ≤ n → ∀ off,
      embedDocsAux g bs off texts = embedBatch g off texts := by
  intro n
  induction n with
  | zero =>
    intro texts h off
    cases texts with
    | nil => simp [embedDocsAux, embedBatch, mapWithIndex]
    | cons t rest => simp at h
  | succ n ih =>
    intro texts h off
    cases texts with
    | nil => simp [embedDocsAux, embedBatch, mapWithIndex]
    | cons t rest =>
      rw [embedDocsAux]
      have hdrop : ((t :: rest).drop (max bs 1)).length ≤ n := by
        simp only [List.length_drop, List.length_cons]
        simp only [List.length_cons] at h
        have h1 : 1 ≤ max bs 1 := le_max_right bs 1
        omega
      rw [ih _ hdrop]
      conv_rhs => rw [← List.take_append_drop (max bs 1) (t :: rest)]
      simp only [embedBatch]
      rw [mapWithIndex_append]

lemma embed_documents_eq (g : Nat → String → Except Err Vec) (bs : Nat) (texts : List String) :
    embed_documents g bs texts = embedBatch g 0 texts := by
  rw [embed_documents]
  by_cases h : texts.isEmpty
  · have : texts = [] := List.isEmpty_iff.mp h
    subst this
    simp [embedBatch, mapWithIndex]
  · simp only [h, if_false]
    exact embedDocsAux_eq g bs texts.length texts (le_refl _) 0

lemma embed_documents_length (g : Nat → String → Except Err Vec) (bs : Nat) (texts : List String) :
    (embed_documents g bs texts).length = texts.length := by
  rw [embed_documents_eq, embedBatch, mapWithIndex_length]

lemma embed_documents_getElem? (g : Nat → String → Except Err Vec) (bs : Nat)
    (texts : List String) (i : Nat) (hi : i < texts.length) :
    (embed_documents g bs texts)[i]? = some (itemResult g i (texts.getD i "")) := by
  rw [embed_documents_eq, embedBatch, mapWithIndex_getElem? _ "" texts 0 i hi]
  simp

lemma stageLoop_all_processed (o : PipelineOracle) (sessionId : String)
    (processed : List String) :
    ∀ uploaded : List UploadedFile, (∀ f ∈ uploaded, f.name ∈ processed) →
      stageLoop o sessionId processed uploaded = .ok ([], []) := by
  intro uploaded
  induction uploaded with
  | nil => intro h; rfl
  | cons f rest ih =>
    intro h
    have hf : f.name ∈ processed := h f (List.mem_cons_self f rest)
    have hrest : ∀ g ∈ rest, g.name ∈ processed := fun g hg => h g (List.mem_cons_of_mem f hg)
    rw [stageLoop]
    simp only [hf, if_true]
    exact ih hrest

/-
  ===========================  Claim theorems  =================================
-/

/-- Claim C5: embed attempts the external call up to the configured maximum
number of times (MAX_RETRIES, default 3); after the failed attempt numbered a
(0-based), when it is not the last, it sleeps 0.5 * (a + 1) seconds before
retrying; if the final attempt fails its exception propagates; a successful
attempt returns at once with no further attempts. -/
theorem C5_embed_retry_policy (oracle : Nat → Except Err Vec) (m : Nat) (hm : 1 ≤ m) :
    RAGConfig.MAX_RETRIES = 3
    ∧ (embed oracle m).attempts ≤ m
    ∧ (∀ k v, k < m → (∀ j, j < k → isErr (oracle j) = true) → oracle k = .ok v →
        embed oracle m =
          { result := .ok (some v)
            sleeps := (List.range k).map (fun j => sleepAfter j)
            attempts := k + 1 })
    ∧ (∀ e, (∀ j, j < m → isErr (oracle j) = true) → oracle (m - 1) = .error e →
        embed oracle m =
          { result := .error e
            sleeps := (List.range (m - 1)).map (fun j => sleepAfter j)
            attempts := m }) := by
  refine ⟨rfl, embedLoop_attempts_le oracle m m, ?_, ?_⟩
  · intro k v hk hfail hok
    have h := embedLoop_ok_from oracle m k v hk hok hfail m 0 (by omega) (by omega)
    simpa [embed] using h
  · intro e hfail hlast
    have h := embedLoop_err_from oracle m e hm hlast hfail m 0 (by omega) (by omega)
    simpa [embed] using h

/-- Witness for C5 at a concrete input: with MAX_RETRIES = 3, a first-attempt
failure is retried after one recorded sleep and the second attempt's vector
is returned. -/
theorem C5_witness :
    embed oracleC5 3 =
      { result := .ok (some [1]), sleeps := [sleepAfter 0], attempts := 2 } := by
  have h := (C5_embed_retry_policy oracleC5 3 (by norm_num)).2.2.1 1 [1]
    (by norm_num) (by decide) (by rfl)
  simpa using h

/-- Claim C2: embed_documents returns one embedding per input text, the entry
at position i being the result for texts[i] (its embedding, or the zero
fallback when its embed call failed); this holds for every batch size and,
within each batch, for every order in which the concurrent per-item futures
complete. -/
theorem C2_embed_documents_order_preserving (g : Nat → String → Except Err Vec)
    (bs : Nat) (hbs : 1 ≤ bs) (texts : List String) :
    (embed_documents g bs texts).length = texts.length
    ∧ (∀ i, i < texts.length →
        (embed_documents g bs texts)[i]? = some (itemResult g i (texts.getD i "")))
    ∧ (∀ (off : Nat) (batch : List String) (order : List Nat),
        order.Perm (List.range batch.length) →
        embedBatchOrd g off batch order = (embedBatch g off batch).map some) := by
  refine ⟨embed_documents_length g bs texts, ?_, ?_⟩
  · intro i hi
    exact embed_documents_getElem? g bs texts i hi
  · intro off batch order hperm
    exact embedBatchOrd_perm g off batch order hperm

/-- Witness for C2 at a concrete input. -/
theorem C2_witness :
    (embed_documents oracleC2 20 ["alpha", "beta"]).length = 2
    ∧ (embed_documents oracleC2 20 ["alpha", "beta"])[1]? =
        some (itemResult oracleC2 1 "beta") := by
  have h := C2_embed_documents_order_preserving oracleC2 20 (by norm_num) ["alpha", "beta"]
  exact ⟨by simpa using h.1, by simpa using h.2.1 1 (by norm_num)⟩

/-- Counterexample to claim C4 as stated: the fallback written for a failed
item is the hard-coded [0.0] * 1024, so its length is 1024 even when the
successfully embedded items of the same batch have dimensionality 2; the
claim that the fallback length equals the dimensionality of successfully
embedded items is false at this input. -/
theorem C4_counterexample :
    isErr (oracleC4 1 "b") = true
    ∧ (embed_documents oracleC4 20 ["a", "b"])[0]? = some [1, 2]
    ∧ (embed_documents oracleC4 20 ["a", "b"])[1]? = some fallbackVector
    ∧ fallbackVector.length = 1024
    ∧ (1024 : Nat) ≠ 2 := by
  refine ⟨by decide, ?_, ?_, by simp only [fallbackVector, List.length_replicate], by norm_num⟩
  · have h := embed_documents_getElem? oracleC4 20 ["a", "b"] 0 (by norm_num)
    simpa [itemResult, oracleC4] using h
  · have h := embed_documents_getElem? oracleC4 20 ["a", "b"] 1 (by norm_num)
    simpa [itemResult, oracleC4] using h

/-- Claim C4 (amended): when the embedding of one item fails after its
retries, that item's result is the deterministic all-zero vector of the fixed
hard-coded length 1024 (not necessarily the dimensionality of the other
items), and the failure does not abort the batch: every other item's
successful embedding is still returned at its own position. -/
theorem C4_amended_zero_fallback (g : Nat → String → Except Err Vec) (bs : Nat)
    (hbs : 1 ≤ bs) (texts : List String) (i : Nat) (hi : i < texts.length)
    (hfail : isErr (g i (texts.getD i "")) = true) :
    (embed_documents g bs texts)[i]? = some fallbackVector
    ∧ fallbackVector = List.replicate 1024 0
    ∧ (∀ j v, j < texts.length → g j (texts.getD j "") = .ok v →
        (embed_documents g bs texts)[j]? = some v) := by
  refine ⟨?_, rfl, ?_⟩
  · rw [embed_documents_getElem? g bs texts i hi]
    cases hg : g i (texts.getD i "") with
    | ok v => rw [hg] at hfail; simp [isErr] at hfail
    | error e =>
      simp only [itemResult]
      rw [hg]
  · intro j v hj hok
    rw [embed_documents_getElem? g bs texts j hj]
    simp only [itemResult]
    rw [hok]

/-- Witness for the amended C4 at a concrete input. -/
theorem C4_amended_witness :
    (embed_documents oracleC4W 20 ["x", "y"])[0]? = some fallbackVector
    ∧ (embed_documents oracleC4W 20 ["x", "y"])[1]? = some [5] := by
  have h := C4_amended_zero_fallback oracleC4W 20 (by norm_num) ["x", "y"] 0
    (by norm_num) (by decide)
  exact ⟨h.1, by simpa using h.2.2 1 [5] (by norm_num) (by rfl)⟩

/-- Every run of process_docs either takes the committed exit, or returns the
previous index and previous processed-file list; and in either case the
staging directory survives exactly when the rmtree call in the finally block
fails. -/
lemma process_docs_master (o : PipelineOracle) (sid : String)
    (uploaded : List UploadedFile) (pf : List String) (db0 : Option DB) :
    (process_docs o sid uploaded pf db0).dirExists = !o.rmtreeOk
    ∧ ((process_docs o sid uploaded pf db0).exit = .committed
       ∨ ((process_docs o sid uploaded pf db0).db = db0
          ∧ (process_docs o sid uploaded pf db0).processed = pf)) := by
  rw [process_docs]
  cases stageLoop o sid pf uploaded with
  | error e => exact ⟨rfl, Or.inr ⟨rfl, rfl⟩⟩
  | ok tn =>
    obtain ⟨tf, np⟩ := tn
    cases tf with
    | nil => exact ⟨rfl, Or.inr ⟨rfl, rfl⟩⟩
    | cons t ts =>
      simp only [stageOutcome, List.isEmpty_cons, Bool.false_eq_true, if_false]
      cases o.loadDocs (t :: ts) with
      | error e => exact ⟨rfl, Or.inr ⟨rfl, rfl⟩⟩
      | ok docs =>
        cases docs with
        | nil => exact ⟨rfl, Or.inr ⟨rfl, rfl⟩⟩
        | cons d ds =>
          simp only [loadStage, List.isEmpty_cons, Bool.false_eq_true, if_false]
          cases o.splitDocs (d :: ds) with
          | error e => exact ⟨rfl, Or.inr ⟨rfl, rfl⟩⟩
          | ok splits =>
            cases splits with
            | nil => exact ⟨rfl, Or.inr ⟨rfl, rfl⟩⟩
            | cons s ss =>
              simp only [splitStage, List.isEmpty_cons, Bool.false_eq_true, if_false]
              cases db0 with
              | none => exact ⟨rfl, Or.inl rfl⟩
              | some db1 =>
                simp only [commitStage]
                cases o.addErr db1.entries (s :: ss) with
                | none => exact ⟨rfl, Or.inl rfl⟩
                | some e => exact ⟨rfl, Or.inl rfl⟩

/-- Claim C1: whenever a stage exception reaches the pipeline boundary (the
run exits through the except handler), process_docs returns exactly the
previous index and the previous processed-file list; no new filenames are
committed. -/
theorem C1_exception_rollback (o : PipelineOracle) (sid : String)
    (uploaded : List UploadedFile) (pf : List String) (db0 : Option DB)
    (h : (process_docs o sid uploaded pf db0).exit = .exceptionCaught) :
    (process_docs o sid uploaded pf db0).db = db0
    ∧ (process_docs o sid uploaded pf db0).processed = pf := by
  rcases (process_docs_master o sid uploaded pf db0).2 with hc | hok
  · rw [h] at hc
    simp at hc
  · exact hok

/-- Witness for C1 at a concrete input: a run whose splitting stage raises
returns the previous index and file list unchanged. -/
theorem C1_witness :
    (process_docs oracleC1 "s1" [{ name := "new.pdf", content := "bytes" }]
        ["old.pdf"] (some { entries := ["old chunk"] })).db =
      some { entries := ["old chunk"] }
    ∧ (process_docs oracleC1 "s1" [{ name := "new.pdf", content := "bytes" }]
        ["old.pdf"] (some { entries := ["old chunk"] })).processed = ["old.pdf"] :=
  C1_exception_rollback oracleC1 "s1" [{ name := "new.pdf", content := "bytes" }]
    ["old.pdf"] (some { entries := ["old chunk"] }) (by decide)

/-- Claim C3: when every uploaded file name is already in processed_files,
process_docs short-circuits: previous index and file list are returned, the
run performs no loading, splitting or index work (empty stage trace, hence no
embedding network calls), and takes the no-new-files exit. -/
theorem C3_idempotent_reingestion (o : PipelineOracle) (sid : String)
    (uploaded : List UploadedFile) (pf : List String) (db0 : Option DB)
    (h : ∀ f ∈ uploaded, f.name ∈ pf) :
    (process_docs o sid uploaded pf db0).db = db0
    ∧ (process_docs o sid uploaded pf db0).processed = pf
    ∧ (process_docs o sid uploaded pf db0).trace = []
    ∧ (process_docs o sid uploaded pf db0).exit = .noNewFiles := by
  rw [process_docs, stageLoop_all_processed o sid pf uploaded h]
  exact ⟨rfl, rfl, rfl, rfl⟩

/-- Witness for C3 at a concrete input: re-uploading an already processed
file changes nothing and performs no stage work. -/
theorem C3_witness :
    (process_docs oracleC3 "s1" [{ name := "a.pdf", content := "bytes" }]
        ["a.pdf"] (some { entries := ["c1"] })).db = some { entries := ["c1"] }
    ∧ (process_docs oracleC3 "s1" [{ name := "a.pdf", content := "bytes" }]
        ["a.pdf"] (some { entries := ["c1"] })).processed = ["a.pdf"]
    ∧ (process_docs oracleC3 "s1" [{ name := "a.pdf", content := "bytes" }]
        ["a.pdf"] (some { entries := ["c1"] })).trace = [] := by
  have h := C3_idempotent_reingestion oracleC3 "s1"
    [{ name := "a.pdf", content := "bytes" }] ["a.pdf"] (some { entries := ["c1"] })
    (by decide)
  exact ⟨h.1, h.2.1, h.2.2.1⟩

/-- Counterexample to claim C8 as stated: when the rmtree call in the finally
block raises, the exception is caught and logged (utils/rag.py prints a
cleanup warning) and the staging directory still exists when the call
returns, so the directory is not guaranteed removed on every call. -/
theorem C8_counterexample :
    (process_docs oracleC8 "s1" [] [] none).dirExists = true := by
  decide

/-- Claim C8 (amended): on every exit path of process_docs the removal of the
staging directory data/{session_id} is attempted; whenever that rmtree call
itself succeeds, the directory no longer exists when the call returns.  (If
rmtree raises, the failure is caught and logged and the directory may
persist.) -/
theorem C8_amended_cleanup (o : PipelineOracle) (sid : String)
    (uploaded : List UploadedFile) (pf : List String) (db0 : Option DB)
    (h : o.rmtreeOk = true) :
    (process_docs o sid uploaded pf db0).dirExists = false := by
  rw [(process_docs_master o sid uploaded pf db0).1, h]
  rfl

/-- Witness for the amended C8 at a concrete input. -/
theorem C8_amended_witness :
    (process_docs oracleC8W "s1" [{ name := "f.pdf", content := "bytes" }] [] none).dirExists
      = false :=
  C8_amended_cleanup oracleC8W "s1" [{ name := "f.pdf", content := "bytes" }] [] none rfl

/-- Claim C9: with an existing index and non-empty new splits, when
add_documents raises and the fallback Chroma.from_documents succeeds, the run
commits: it returns the brand-new index built from the new splits alone
(prior entries are absent from it), extends processed_files with the new
filenames, and exits normally (the add_documents failure is logged, not
propagated). -/
theorem C9_upsert_fallback (o : PipelineOracle) (sid : String)
    (uploaded : List UploadedFile) (pf : List String) (db1 : DB)
    (tf np : List String) (docs splits : List Doc) (err : Err)
    (hstage : stageLoop o sid pf uploaded = .ok (tf, np))
    (htf : tf ≠ [])
    (hload : o.loadDocs tf = .ok docs) (hdocs : docs ≠ [])
    (hsplit : o.splitDocs docs = .ok splits) (hsp : splits ≠ [])
    (hadd : o.addErr db1.entries splits = some err)
    (hcreate : o.createErr splits = none) :
    (process_docs o sid uploaded pf (some db1)).db = some { entries := splits }
    ∧ (process_docs o sid uploaded pf (some db1)).processed = pf ++ np
    ∧ (process_docs o sid uploaded pf (some db1)).exit = .committed := by
  have hget : get_db o splits = some { entries := splits } := by
    rw [get_db, if_neg (by simpa using hsp), hcreate]
  have heq : process_docs o sid uploaded pf (some db1) =
      finishRun o (some { entries := splits }) (pf ++ np)
        [.load, .split, .indexAdd, .indexCreate] .committed := by
    rw [process_docs, hstage]
    simp only [stageOutcome]
    rw [if_neg (by simpa using htf), hload]
    simp only [loadStage]
    rw [if_neg (by simpa using hdocs), hsplit]
    simp only [splitStage]
    rw [if_neg (by simpa using hsp)]
    simp only [commitStage]
    rw [hadd, hget]
  rw [heq]
  exact ⟨rfl, rfl, rfl⟩

/-- Witness for C9 at a concrete input: the old entry is lost, the new index
holds only the new chunk, and the new filename is committed. -/
theorem C9_witness :
    (process_docs oracleC9 "s1" [{ name := "new.pdf", content := "bytes" }]
        [] (some { entries := ["old chunk"] })).db = some { entries := ["new doc"] }
    ∧ (process_docs oracleC9 "s1" [{ name := "new.pdf", content := "bytes" }]
        [] (some { entries := ["old chunk"] })).processed = ["new.pdf"] := by
  have h := C9_upsert_fallback oracleC9 "s1" [{ name := "new.pdf", content := "bytes" }]
    [] { entries := ["old chunk"] } [tempPath "s1" "new.pdf"] ["new.pdf"]
    ["new doc"] ["new doc"] "add_documents raised"
    (by decide) (by decide) (by decide) (by decide) (by decide) (by decide)
    (by decide) (by decide)
  exact ⟨h.1, by simpa using h.2.1⟩

/-- Claim C10: when staging found new files but loading extracts zero
documents, or splitting produces zero chunks, process_docs returns the
previous index and previous processed-file list unchanged and performs no
index write (no index stage appears in the trace): a filename enters
processed_files only when an index write for its chunks was performed. -/
theorem C10_no_docs_no_commit (o : PipelineOracle) (sid : String)
    (uploaded : List UploadedFile) (pf : List String) (db0 : Option DB)
    (tf np : List String) (docs : List Doc)
    (hstage : stageLoop o sid pf uploaded = .ok (tf, np))
    (htf : tf ≠ [])
    (hload : o.loadDocs tf = .ok docs)
    (hempty : docs = [] ∨ (docs ≠ [] ∧ o.splitDocs docs = .ok [])) :
    (process_docs o sid uploaded pf db0).db = db0
    ∧ (process_docs o sid uploaded pf db0).processed = pf
    ∧ StageWork.indexCreate ∉ (process_docs o sid uploaded pf db0).trace
    ∧ StageWork.indexAdd ∉ (process_docs o sid uploaded pf db0).trace := by
  rcases hempty with hdocs | ⟨hdocs, hsplit⟩
  · have heq : process_docs o sid uploaded pf db0 =
        finishRun o db0 pf [.load] .noDocs := by
      rw [process_docs, hstage]
      simp only [stageOutcome]
      rw [if_neg (by simpa using htf), hload, hdocs]
      simp only [loadStage]
      rfl
    rw [heq]
    refine ⟨rfl, rfl, by simp [finishRun], by simp [finishRun]⟩
  · have heq : process_docs o sid uploaded pf db0 =
        finishRun o db0 pf [.load, .split] .noSplits := by
      rw [process_docs, hstage]
      simp only [stageOutcome]
      rw [if_neg (by simpa using htf), hload]
      simp only [loadStage]
      rw [if_neg (by simpa using hdocs), hsplit]
      simp only [splitStage]
      rfl
    rw [heq]
    refine ⟨rfl, rfl, by simp [finishRun], by simp [finishRun]⟩

/-- Witness for C10 at a concrete input: a successfully staged file whose
loading extracts nothing is not added to processed_files. -/
theorem C10_witness :
    (process_docs oracleC10 "s1" [{ name := "empty.pdf", content := "bytes" }]
        [] (some { entries := ["c1"] })).db = some { entries := ["c1"] }
    ∧ (process_docs oracleC10 "s1" [{ name := "empty.pdf", content := "bytes" }]
        [] (some { entries := ["c1"] })).processed = [] := by
  have h := C10_no_docs_no_commit oracleC10 "s1"
    [{ name := "empty.pdf", content := "bytes" }] [] (some { entries := ["c1"] })
    [tempPath "s1" "empty.pdf"] ["empty.pdf"] []
    (by decide) (by decide) (by decide) (Or.inl rfl)
  exact ⟨h.1, h.2.1⟩

/-- Claim C6: generate_response is a total function into answer strings, and
on every failure of the generation call it returns the corresponding literal
error string instead of raising: the timeout literal on a timeout, the
status-coded literal on a non-200 response, and a literal embedding the
exception text on any other exception (including a failing parse of a 200
response); a 200 response with a good body is returned as the answer. -/
theorem C6_generate_response_total (net : String → GenOutcome) (query : String)
    (context : List String) (history : List Exchange) :
    (net (buildPrompt query context history) = .timeout →
      generate_response net query context history =
        "Error: Request timed out. Please try again.")
    ∧ (∀ s parse, net (buildPrompt query context history) = .httpResp s parse → s ≠ 200 →
      generate_response net query context history =
        "Error: Failed to get response from AI model (Status: " ++ toString s ++ ")")
    ∧ (∀ e, net (buildPrompt query context history) = .httpResp 200 (.error e) →
      generate_response net query context history = "Error generating response: " ++ e)
    ∧ (∀ m, net (buildPrompt query context history) = .otherExc m →
      generate_response net query context history = "Error generating response: " ++ m)
    ∧ (∀ resp, net (buildPrompt query context history) = .httpResp 200 (.ok resp) →
      generate_response net query context history = resp) := by
  refine ⟨?_, ?_, ?_, ?_, ?_⟩
  · intro h
    rw [generate_response]
    rw [h]
  · intro s parse h hs
    rw [generate_response]
    rw [h]
    simp only [if_neg hs]
  · intro e h
    rw [generate_response]
    rw [h]
    rfl
  · intro m h
    rw [generate_response]
    rw [h]
  · intro resp h
    rw [generate_response]
    rw [h]
    rfl

/-- Witness for C6 at a concrete input: a timed-out generation call yields
the literal timeout message, and a 500 response yields the status-coded
literal. -/
theorem C6_witness :
    generate_response (fun _ => .timeout) "q" [] [] =
      "Error: Request timed out. Please try again."
    ∧ generate_response (fun _ => .httpResp 500 (.ok "ignored")) "q" [] [] =
      "Error: Failed to get response from AI model (Status: 500)" := by
  refine ⟨(C6_generate_response_total (fun _ => .timeout) "q" [] []).1 rfl, ?_⟩
  have h := (C6_generate_response_total (fun _ => .httpResp 500 (.ok "ignored")) "q" [] []).2.1
    500 (.ok "ignored") rfl (by norm_num)
  simpa using h

/-- Claim C7: retrieve_context keeps exactly the hits whose distance score is
strictly below the fixed threshold 1.5; when no hit is under the threshold it
falls back to an unthresholded similarity_search with k capped at 3, so on a
non-empty index (whose top-k search, per the store contract, returns at
least one hit) the result is non-empty. -/
theorem C7_retrieve_threshold_fallback (d : ChatDB) (query : String) (k : Nat)
    (results : List (String × ℚ)) (fb : List String)
    (hws : d.searchWS query k = .ok results)
    (hfb : d.search query (min k 3) = .ok fb)
    (hcontract : d.hasEntries = true → fb ≠ []) :
    relevanceThreshold = 3 / 2
    ∧ ((results.filter (fun p => p.2 < relevanceThreshold)).map (fun p => p.1) ≠ [] →
        retrieve_context (some d) query k =
          (results.filter (fun p => p.2 < relevanceThreshold)).map (fun p => p.1))
    ∧ ((results.filter (fun p => p.2 < relevanceThreshold)).map (fun p => p.1) = [] →
        retrieve_context (some d) query k = fb)
    ∧ (d.hasEntries = true → retrieve_context (some d) query k ≠ []) := by
  have hbody : retrieve_context (some d) query k =
      (if ((results.filter (fun p => p.2 < relevanceThreshold)).map (fun p => p.1)).isEmpty
        then fb
        else (results.filter (fun p => p.2 < relevanceThreshold)).map (fun p => p.1)) := by
    simp only [retrieve_context, hws]
    rw [hfb]
  refine ⟨rfl, ?_, ?_, ?_⟩
  · intro hne
    rw [hbody, if_neg (by simpa using hne)]
  · intro hemp
    rw [hbody, if_pos (by simpa using hemp)]
  · intro hent
    rw [hbody]
    by_cases hk : ((results.filter (fun p => p.2 < relevanceThreshold)).map (fun p => p.1)).isEmpty
    · rw [if_pos hk]
      exact hcontract hent
    · rw [if_neg hk]
      simpa using hk

/-- Witness for C7 at a concrete input: zero hits under the threshold, so the
unthresholded fallback is returned and the result is non-empty. -/
theorem C7_witness :
    retrieve_context (some chatDbC7) "q" 5 = ["fallback chunk"]
    ∧ retrieve_context (some chatDbC7) "q" 5 ≠ [] := by
  have hkept : (([("far away chunk", (2 : ℚ))].filter
      (fun p => p.2 < relevanceThreshold)).map (fun p => p.1)) = [] := by
    simp only [List.filter, relevanceThreshold]
    norm_num
  have h := C7_retrieve_threshold_fallback chatDbC7 "q" 5 [("far away chunk", 2)]
    ["fallback chunk"] rfl rfl (fun _ => by simp)
  refine ⟨h.2.2.1 hkept, h.2.2.2 rfl⟩
